import Mathlib

/-!
# Verification of the Veureka core interpreter (src/veureka.py)

Shallow embedding of the Veureka scanner and tree-walking evaluator,
with theorems settling the frozen claims about the implementation.

Conventions of the embedding:
* Python `int` is `Int`; Python `float` is modelled as `Rat` (exact
  rationals; rounding of host floats is not load-bearing for any claim).
* Python dictionaries used as scopes become association lists
  (`List (String × Value)`) with dict-style update (replace the first
  occurrence of a key, else append); key order never carries meaning here.
* Mutable scopes and instances live in explicit heaps indexed by `Nat`
  references, so a closure really is a *reference* to its defining scope.
* Python exceptions become an `Outcome` sum (`norm`, `ret`, `brk`, `cont`,
  `err`); recursion is bounded by explicit fuel (`fuelOut` corresponds to
  the host's stack exhaustion, which no claim concerns).
* Host behaviours outside the modelled value space (reflection via
  `getattr`/`setattr` on non-instances, `%` string formatting, real-valued
  powers) are mapped to `Err.unmodelled`; no claim depends on them.
-/

namespace Veureka

/-! ## Lexer (class `Lexer` of veureka.py) -/

/-- Token kinds, enum `TT` of the source. -/
inductive TT where
  | LET | FN | CLASS | NEW | SELF | IF | ELIF | ELSE | FOR | IN | WHILE
  | RETURN | BREAK | CONTINUE | MATCH | CASE | END | TRUE | FALSE | NIL
  | AND | OR | NOT | INCLUDE
  | NUMBER | STRING | IDENT
  | PLUS | MINUS | STAR | SLASH | PERCENT | POWER
  | EQ | NE | LT | LE | GT | GE
  | ASSIGN | PLUS_EQ | MINUS_EQ | STAR_EQ | SLASH_EQ
  | INCREMENT | DECREMENT | ARROW
  | LPAREN | RPAREN | LBRACE | RBRACE | LBRACKET | RBRACKET
  | COMMA | COLON | DOT | NEWLINE
  | EOF
deriving DecidableEq

/-- Token payload (`Token.value` is `Any` in the source: a number,
a string, or `None` for `EOF`). -/
inductive TokVal where
  | none
  | int (n : Int)
  | float (q : Rat)
  | str (s : String)
deriving DecidableEq

/-- `Token` dataclass: kind, payload, and source position. -/
structure Token where
  type : TT
  value : TokVal
  line : Nat
  col : Nat
deriving DecidableEq

/-- The lexer's mutable cursor (`self.pos`, `self.line`, `self.col`);
the source text is passed separately as a `List Char`. -/
structure LexSt where
  pos : Nat
  line : Nat
  col : Nat
deriving DecidableEq

/-- `Lexer.current`: the character at the cursor, `'\x00'` past the end. -/
def lcurrent (src : List Char) (st : LexSt) : Char :=
  src.getD st.pos '\x00'

/-- `Lexer.peek`: the character `off` places ahead, `'\x00'` past the end. -/
def lpeek (src : List Char) (st : LexSt) (off : Nat) : Char :=
  src.getD (st.pos + off) '\x00'

/-- `Lexer.advance`: move one character, tracking line and column. -/
def ladvance (src : List Char) (st : LexSt) : LexSt :=
  if h : st.pos < src.length then
    if src.get ⟨st.pos, h⟩ = '\n' then ⟨st.pos + 1, st.line + 1, 1⟩
    else ⟨st.pos + 1, st.line, st.col + 1⟩
  else st

/-- The keyword table (`self.keywords`). -/
def keywordOf (s : String) : Option TT :=
  if s = "let" then some .LET else if s = "fn" then some .FN
  else if s = "class" then some .CLASS else if s = "new" then some .NEW
  else if s = "self" then some .SELF else if s = "if" then some .IF
  else if s = "elif" then some .ELIF else if s = "else" then some .ELSE
  else if s = "for" then some .FOR else if s = "in" then some .IN
  else if s = "while" then some .WHILE else if s = "return" then some .RETURN
  else if s = "break" then some .BREAK else if s = "continue" then some .CONTINUE
  else if s = "match" then some .MATCH else if s = "case" then some .CASE
  else if s = "end" then some .END else if s = "true" then some .TRUE
  else if s = "false" then some .FALSE else if s = "nil" then some .NIL
  else if s = "and" then some .AND else if s = "or" then some .OR
  else if s = "not" then some .NOT else if s = "include" then some .INCLUDE
  else none

/-- `skip_whitespace_except_newline`, as a loop on a budget that is
instantiated with `src.length - st.pos`; the budget can only run out when
the cursor is already past the end, where the loop would stop anyway. -/
def skipWs (src : List Char) : Nat → LexSt → LexSt
  | 0, st => st
  | k + 1, st =>
    if lcurrent src st = ' ' ∨ lcurrent src st = '\t' ∨ lcurrent src st = '\r'
    then skipWs src k (ladvance src st)
    else st

/-- `skip_line`: consume to the next newline (for `#` comments). -/
def skipLine (src : List Char) : Nat → LexSt → LexSt
  | 0, st => st
  | k + 1, st =>
    if lcurrent src st ≠ '\n' ∧ lcurrent src st ≠ '\x00'
    then skipLine src k (ladvance src st)
    else st

/-- Numeric conversion of a scanned lexeme (`int(num_str)` /
`float(num_str)`); exact rationals stand in for host floats. -/
def numValOf (digits : List Char) (hasDot : Bool) : TokVal :=
  if hasDot then
    let ip := digits.takeWhile (fun c => c ≠ '.')
    let fp := (digits.dropWhile (fun c => c ≠ '.')).drop 1
    let ipn : Nat := ip.foldl (fun a c => a * 10 + c.toNat - '0'.toNat) 0
    let fpn : Nat := fp.foldl (fun a c => a * 10 + c.toNat - '0'.toNat) 0
    .float ((ipn : Rat) + (fpn : Rat) / ((10 : Rat) ^ fp.length))
  else
    .int (digits.foldl (fun a c => a * 10 + (c.toNat : Int) - ('0'.toNat : Int)) 0)

/-- The digit-run loop of `read_number`. -/
def numLoop (src : List Char) : Nat → LexSt → List Char → Bool →
    List Char × Bool × LexSt
  | 0, st, acc, hasDot => (acc, hasDot, st)
  | k + 1, st, acc, hasDot =>
    let c := lcurrent src st
    if c.isDigit ∨ (c = '.' ∧ hasDot = false) then
      numLoop src k (ladvance src st) (acc ++ [c]) (hasDot || c = '.')
    else (acc, hasDot, st)

/-- `Lexer.read_number`. -/
def readNumber (src : List Char) (st : LexSt) : Token × LexSt :=
  let startCol := st.col
  let (digits, hasDot, st') := numLoop src (src.length - st.pos) st [] false
  (⟨.NUMBER, numValOf digits hasDot, st'.line, startCol⟩, st')

/-- The body loop of `read_string`: consume until the matching quote or
the end of input, translating `\n`, `\t`, `\\` and `\<quote>` and
dropping any other escape. -/
def strLoop (src : List Char) (quote : Char) : Nat → LexSt → String →
    String × LexSt
  | 0, st, acc => (acc, st)
  | k + 1, st, acc =>
    let c := lcurrent src st
    if c = quote ∨ c = '\x00' then (acc, st)
    else if c = '\\' then
      let st1 := ladvance src st
      let c1 := lcurrent src st1
      let acc1 :=
        if c1 = 'n' then acc.push '\n'
        else if c1 = 't' then acc.push '\t'
        else if c1 = '\\' then acc.push '\\'
        else if c1 = quote then acc.push quote
        else acc
      strLoop src quote k (ladvance src st1) acc1
    else strLoop src quote k (ladvance src st) (acc.push c)

/-- `Lexer.read_string`: the loop stops at the matching quote *or at the
end of input*; afterwards one `advance` (a no-op at the end of input)
skips the closing quote and a `STRING` token is returned unconditionally. -/
def readString (src : List Char) (st : LexSt) : Token × LexSt :=
  let quote := lcurrent src st
  let startCol := st.col
  let st1 := ladvance src st
  let (content, st2) := strLoop src quote (src.length - st1.pos) st1 ""
  let st3 := ladvance src st2
  (⟨.STRING, .str content, st3.line, startCol⟩, st3)

/-- The identifier-run loop of `read_identifier` (ASCII approximation of
Python's unicode `isalnum`; no claim involves non-ASCII identifiers). -/
def identLoop (src : List Char) : Nat → LexSt → String → String × LexSt
  | 0, st, acc => (acc, st)
  | k + 1, st, acc =>
    let c := lcurrent src st
    if c.isAlphanum ∨ c = '_' then identLoop src k (ladvance src st) (acc.push c)
    else (acc, st)

/-- `Lexer.read_identifier`. -/
def readIdent (src : List Char) (st : LexSt) : Token × LexSt :=
  let startCol := st.col
  let (ident, st') := identLoop src (src.length - st.pos) st ""
  match keywordOf ident with
  | some kw => (⟨kw, .str ident, st'.line, startCol⟩, st')
  | none => (⟨.IDENT, .str ident, st'.line, startCol⟩, st')

/-- `make_token`: build a token at the current position, then advance. -/
def mkTok (src : List Char) (st : LexSt) (t : TT) (v : TokVal) :
    Token × LexSt :=
  (⟨t, v, st.line, st.col⟩, ladvance src st)

/-- Result of `Lexer.tokenize`: a token list, a lexical error
(the `SyntaxError` raised for an unexpected character), or fuel
exhaustion of the embedding. -/
inductive LexOut where
  | ok (toks : List Token)
  | lexError (line col : Nat) (ch : Char)
  | noFuel
deriving DecidableEq

/-- The main `while` loop of `Lexer.tokenize`, one fuel unit per
iteration.  Mirrors the source's dispatch order exactly; in particular
the `'!'` branch emits `!=` when the next character is `'='` and
otherwise does nothing at all — it neither consumes the character nor
raises, so the loop repeats with an unchanged state. -/
def tokLoop (src : List Char) : Nat → LexSt → List Token → LexOut
  | 0, _, _ => .noFuel
  | fuel + 1, st0, acc =>
    if st0.pos < src.length then
      let st := skipWs src (src.length - st0.pos) st0
      if st.pos ≥ src.length then
        .ok (acc ++ [⟨.EOF, .none, st.line, st.col⟩])
      else
        let c := lcurrent src st
        if c = '#' then
          tokLoop src fuel (skipLine src (src.length - st.pos) st) acc
        else if c = '\n' then
          let (t, st') := mkTok src st .NEWLINE (.str "\n")
          tokLoop src fuel st' (acc ++ [t])
        else if c.isDigit then
          let (t, st') := readNumber src st
          tokLoop src fuel st' (acc ++ [t])
        else if c = '"' ∨ c = '\'' then
          let (t, st') := readString src st
          tokLoop src fuel st' (acc ++ [t])
        else if c.isAlpha ∨ c = '_' then
          let (t, st') := readIdent src st
          tokLoop src fuel st' (acc ++ [t])
        else if c = '+' then
          if lpeek src st 1 = '+' then
            let (t, st') := mkTok src (ladvance src st) .INCREMENT (.str "++")
            tokLoop src fuel st' (acc ++ [t])
          else if lpeek src st 1 = '=' then
            let (t, st') := mkTok src (ladvance src st) .PLUS_EQ (.str "+=")
            tokLoop src fuel st' (acc ++ [t])
          else
            let (t, st') := mkTok src st .PLUS (.str "+")
            tokLoop src fuel st' (acc ++ [t])
        else if c = '-' then
          if lpeek src st 1 = '-' then
            let (t, st') := mkTok src (ladvance src st) .DECREMENT (.str "--")
            tokLoop src fuel st' (acc ++ [t])
          else if lpeek src st 1 = '=' then
            let (t, st') := mkTok src (ladvance src st) .MINUS_EQ (.str "-=")
            tokLoop src fuel st' (acc ++ [t])
          else
            let (t, st') := mkTok src st .MINUS (.str "-")
            tokLoop src fuel st' (acc ++ [t])
        else if c = '*' then
          if lpeek src st 1 = '*' then
            let (t, st') := mkTok src (ladvance src st) .POWER (.str "**")
            tokLoop src fuel st' (acc ++ [t])
          else if lpeek src st 1 = '=' then
            let (t, st') := mkTok src (ladvance src st) .STAR_EQ (.str "*=")
            tokLoop src fuel st' (acc ++ [t])
          else
            let (t, st') := mkTok src st .STAR (.str "*")
            tokLoop src fuel st' (acc ++ [t])
        else if c = '/' then
          if lpeek src st 1 = '=' then
            let (t, st') := mkTok src (ladvance src st) .SLASH_EQ (.str "/=")
            tokLoop src fuel st' (acc ++ [t])
          else
            let (t, st') := mkTok src st .SLASH (.str "/")
            tokLoop src fuel st' (acc ++ [t])
        else if c = '%' then
          let (t, st') := mkTok src st .PERCENT (.str "%")
          tokLoop src fuel st' (acc ++ [t])
        else if c = '=' then
          if lpeek src st 1 = '=' then
            let (t, st') := mkTok src (ladvance src st) .EQ (.str "==")
            tokLoop src fuel st' (acc ++ [t])
          else if lpeek src st 1 = '>' then
            let (t, st') := mkTok src (ladvance src st) .ARROW (.str "=>")
            tokLoop src fuel st' (acc ++ [t])
          else
            let (t, st') := mkTok src st .ASSIGN (.str "=")
            tokLoop src fuel st' (acc ++ [t])
        else if c = '!' then
          if lpeek src st 1 = '=' then
            let (t, st') := mkTok src (ladvance src st) .NE (.str "!=")
            tokLoop src fuel st' (acc ++ [t])
          else
            tokLoop src fuel st acc
        else if c = '<' then
          if lpeek src st 1 = '=' then
            let (t, st') := mkTok src (ladvance src st) .LE (.str "<=")
            tokLoop src fuel st' (acc ++ [t])
          else
            let (t, st') := mkTok src st .LT (.str "<")
            tokLoop src fuel st' (acc ++ [t])
        else if c = '>' then
          if lpeek src st 1 = '=' then
            let (t, st') := mkTok src (ladvance src st) .GE (.str ">=")
            tokLoop src fuel st' (acc ++ [t])
          else
            let (t, st') := mkTok src st .GT (.str ">")
            tokLoop src fuel st' (acc ++ [t])
        else if c = '(' then
          let (t, st') := mkTok src st .LPAREN (.str "(")
          tokLoop src fuel st' (acc ++ [t])
        else if c = ')' then
          let (t, st') := mkTok src st .RPAREN (.str ")")
          tokLoop src fuel st' (acc ++ [t])
        else if c = '{' then
          let (t, st') := mkTok src st .LBRACE (.str "\x7b")
          tokLoop src fuel st' (acc ++ [t])
        else if c = '}' then
          let (t, st') := mkTok src st .RBRACE (.str "\x7d")
          tokLoop src fuel st' (acc ++ [t])
        else if c = '[' then
          let (t, st') := mkTok src st .LBRACKET (.str "[")
          tokLoop src fuel st' (acc ++ [t])
        else if c = ']' then
          let (t, st') := mkTok src st .RBRACKET (.str "]")
          tokLoop src fuel st' (acc ++ [t])
        else if c = ',' then
          let (t, st') := mkTok src st .COMMA (.str ",")
          tokLoop src fuel st' (acc ++ [t])
        else if c = ':' then
          let (t, st') := mkTok src st .COLON (.str ":")
          tokLoop src fuel st' (acc ++ [t])
        else if c = '.' then
          let (t, st') := mkTok src st .DOT (.str ".")
          tokLoop src fuel st' (acc ++ [t])
        else
          .lexError st.line st.col c
    else
      .ok (acc ++ [⟨.EOF, .none, st0.line, st0.col⟩])

/-- `Lexer.tokenize`, bounded by fuel. -/
def tokenize (source : String) (fuel : Nat) : LexOut :=
  tokLoop source.data fuel ⟨0, 1, 1⟩ []

/-! ## AST (the `Node` dataclasses)

`IncludeStmt` is omitted: it performs file-system access and no claim
concerns it.  `ClassDef.methods` keeps the parser's shape, a mapping from
method name to the method's `FnDef` node. -/

/-- Payload of `Literal` nodes (the parser only stores numbers, strings,
booleans and `None`). -/
inductive Const where
  | nil
  | bool (b : Bool)
  | int (n : Int)
  | float (q : Rat)
  | str (s : String)
deriving DecidableEq

inductive Node where
  | program (stmts : List Node)
  | letStmt (name : String) (value : Node)
  | fnDef (name : Option String) (params : List String) (body : List Node)
  | ifStmt (cond : Node) (thenBody : List Node)
      (elifParts : List (Node × List Node)) (elseBody : Option (List Node))
  | forStmt (var : String) (iterable : Node) (body : List Node)
  | whileStmt (cond : Node) (body : List Node)
  | returnStmt (value : Option Node)
  | breakStmt
  | continueStmt
  | binaryOp (left : Node) (op : String) (right : Node)
  | unaryOp (op : String) (operand : Node)
  | call (func : Node) (args : List Node)
  | index (obj : Node) (idx : Node)
  | attr (obj : Node) (name : String)
  | literal (c : Const)
  | var (name : String)
  | listLit (elems : List Node)
  | classDef (name : String) (methods : List (String × Node))
  | newInstance (className : String) (args : List Node)
  | attrAssign (obj : Node) (name : String) (value : Node)
  | compoundAssign (name : String) (op : String) (value : Node)
  | incDec (target : Node) (op : String) (isPre : Bool)
  | mapLit (pairs : List (String × Node))

/-! ## Value model and interpreter state -/

/-- `VerFunction`: parameters, body, and the closure, which is a
*reference* (a heap index) to the defining scope — not a copy. -/
structure VerFunction where
  params : List String
  body : List Node
  closure : Nat

/-- Runtime values.  `cls` carries the (immutable) `VerClass` data
inline; `inst` is a reference into the instance heap.  Host callables
(`print`, `len`, …) never appear in the claims and are not part of the
modelled value space. -/
inductive Value where
  | nil
  | bool (b : Bool)
  | int (n : Int)
  | float (q : Rat)
  | str (s : String)
  | list (elems : List Value)
  | map (entries : List (String × Value))
  | func (f : VerFunction)
  | cls (name : String) (methods : List (String × VerFunction))
  | inst (ref : Nat)

/-- A scope: a Python dict from names to values. -/
abbrev Scope := List (String × Value)

/-- `VerInstance`: class back-reference (inlined, classes are immutable
after construction) plus the mutable field mapping. -/
structure InstData where
  clsName : String
  methods : List (String × VerFunction)
  fields : Scope

/-- Interpreter state: the scope heap (closures point into it), the
instance heap, `self.locals_stack` (a list of scope references, innermost
last) and `self.globals`. -/
structure State where
  envs : List Scope
  insts : List InstData
  stack : List Nat
  globals : Scope

/-! ### Association-list (dict) primitives -/

/-- First-match lookup in an association list. -/
def alistLookup {α : Type} : List (String × α) → String → Option α
  | [], _ => none
  | (k, v) :: rest, key => if key = k then some v else alistLookup rest key

/-- `key in dict`. -/
def alistContains {α : Type} (l : List (String × α)) (key : String) : Bool :=
  (alistLookup l key).isSome

/-- `dict[key] = v`: replace the first binding of `key`, else append. -/
def alistSet {α : Type} : List (String × α) → String → α → List (String × α)
  | [], key, v => [(key, v)]
  | (k, w) :: rest, key, v =>
    if key = k then (k, v) :: rest else (k, w) :: alistSet rest key v

def scopeLookup (sc : Scope) (key : String) : Option Value := alistLookup sc key
def scopeContains (sc : Scope) (key : String) : Bool := alistContains sc key
def scopeSet (sc : Scope) (key : String) (v : Value) : Scope := alistSet sc key v

/-! ### Heap helpers -/

/-- Read a scope from the heap (references produced by the interpreter
are always valid; the default is never reached in real executions). -/
def envGet (s : State) (r : Nat) : Scope := s.envs.getD r []

def envSet (s : State) (r : Nat) (sc : Scope) : State :=
  { s with envs := s.envs.set r sc }

/-- Allocate a fresh scope (a new Python dict object). -/
def allocEnv (s : State) (sc : Scope) : Nat × State :=
  (s.envs.length, { s with envs := s.envs ++ [sc] })

def instGetD (s : State) (r : Nat) : InstData := s.insts.getD r ⟨"", [], []⟩

/-- `VerInstance.set`: update one field of an instance on the heap. -/
def instSetField (s : State) (r : Nat) (name : String) (v : Value) : State :=
  let d := instGetD s r
  { s with insts := s.insts.set r { d with fields := scopeSet d.fields name v } }

/-- Allocate a fresh instance with empty fields. -/
def allocInst (s : State) (d : InstData) : Nat × State :=
  (s.insts.length, { s with insts := s.insts ++ [d] })

/-! ### Truthiness and operators -/

/-- `Interpreter.is_truthy`: `None`/`False`, then `value == 0`,
`value == ""`, `value == []`.  An empty map matches none of those Python
comparisons, so maps — like functions, classes and instances — are
always truthy. -/
def is_truthy : Value → Bool
  | .nil => false
  | .bool b => b
  | .int n => n != 0
  | .float q => q != 0
  | .str s => !s.isEmpty
  | .list xs => !xs.isEmpty
  | .map _ => true
  | .func _ => true
  | .cls _ _ => true
  | .inst _ => true

/-- *Python's* own truthiness (used by the source's `if not ver_class:`
resolution fallback in `NewInstance`): unlike `is_truthy`, an empty
Python dict is falsy. -/
def pyTruthy : Value → Bool
  | .nil => false
  | .bool b => b
  | .int n => n != 0
  | .float q => q != 0
  | .str s => !s.isEmpty
  | .list xs => !xs.isEmpty
  | .map m => !m.isEmpty
  | .func _ => true
  | .cls _ _ => true
  | .inst _ => true

/-- Numeric view for Python's cross-type numeric semantics
(`bool` is a subtype of `int` in the host). -/
def toRatNum : Value → Option Rat
  | .int n => some (n : Rat)
  | .float q => some q
  | .bool b => some (if b then 1 else 0)
  | _ => none

/-- Integer view (`int` and `bool` operands). -/
def toIntNum : Value → Option Int
  | .int n => some n
  | .bool b => some (if b then 1 else 0)
  | _ => none

def isFloatV : Value → Bool
  | .float _ => true
  | _ => false

/- Python `==` on the modelled values: numeric kinds compare by value,
strings/lists/maps structurally, instances by identity (heap reference),
unrelated kinds are `False`.  Object identity of function and class
values is not tracked by the embedding, so they compare `False` here
(as two distinct host objects would); no claim depends on it.  Map
comparison is entry-order-sensitive in the model. -/
mutual
def pyEq : Value → Value → Bool
  | .nil, .nil => true
  | .str a, .str b => a == b
  | .list xs, .list ys => pyEqList xs ys
  | .map xs, .map ys => pyEqEntries xs ys
  | .inst r, .inst r' => r == r'
  | a, b =>
    match toRatNum a, toRatNum b with
    | some x, some y => x == y
    | _, _ => false

def pyEqList : List Value → List Value → Bool
  | [], [] => true
  | a :: as', b :: bs => pyEq a b && pyEqList as' bs
  | _, _ => false

def pyEqEntries : List (String × Value) → List (String × Value) → Bool
  | [], [] => true
  | (k, v) :: xs, (k', v') :: ys => k == k' && pyEq v v' && pyEqEntries xs ys
  | _, _ => false
end

/-! ### Errors and outcomes -/

/-- The error kinds surfaced by evaluation (§7 of the spec). -/
inductive Err where
  | nameError (n : String)
  | typeError (msg : String)
  | attrError (cls attr : String)
  | indexError
  | keyError (k : String)
  | zeroDiv
  | unmodelled (what : String)

/-- Tagged outcome of one `execute` call: normal completion, the three
control signals (`ReturnException`, `BreakException`,
`ContinueException`), an error, or fuel exhaustion of the embedding. -/
inductive Outcome where
  | norm (v : Value)
  | ret (v : Value)
  | brk
  | cont
  | err (e : Err)
  | fuelOut

/-! ### Host arithmetic (`left OP right` delegated to Python)

The source computes `left + right` etc. directly on host values; these
functions spell out the host semantics on the modelled value space.
`Rat` stands in for host floats (exactness is not load-bearing). -/

/-- Python `+`: string/list concatenation, numeric addition with float
promotion, `TypeError` otherwise. -/
def addVal : Value → Value → Except Err Value
  | .str a, .str b => .ok (.str (a ++ b))
  | .list xs, .list ys => .ok (.list (xs ++ ys))
  | a, b =>
    if isFloatV a || isFloatV b then
      match toRatNum a, toRatNum b with
      | some x, some y => .ok (.float (x + y))
      | _, _ => .error (.typeError "unsupported operand type for +")
    else
      match toIntNum a, toIntNum b with
      | some x, some y => .ok (.int (x + y))
      | _, _ => .error (.typeError "unsupported operand type for +")

/-- Python `-`. -/
def subVal (a b : Value) : Except Err Value :=
  if isFloatV a || isFloatV b then
    match toRatNum a, toRatNum b with
    | some x, some y => .ok (.float (x - y))
    | _, _ => .error (.typeError "unsupported operand type for -")
  else
    match toIntNum a, toIntNum b with
    | some x, some y => .ok (.int (x - y))
    | _, _ => .error (.typeError "unsupported operand type for -")

/-- Repetition for Python `str * int` / `list * int`. -/
def repList {α : Type} (xs : List α) : Nat → List α
  | 0 => []
  | n + 1 => xs ++ repList xs n

/-- Python `*`: numeric product, or sequence repetition. -/
def mulVal : Value → Value → Except Err Value
  | .str a, b =>
    match toIntNum b with
    | some n => .ok (.str ⟨repList a.data n.toNat⟩)
    | none => .error (.typeError "unsupported operand type for *")
  | a, .str b =>
    match toIntNum a with
    | some n => .ok (.str ⟨repList b.data n.toNat⟩)
    | none => .error (.typeError "unsupported operand type for *")
  | .list xs, b =>
    match toIntNum b with
    | some n => .ok (.list (repList xs n.toNat))
    | none => .error (.typeError "unsupported operand type for *")
  | a, .list ys =>
    match toIntNum a with
    | some n => .ok (.list (repList ys n.toNat))
    | none => .error (.typeError "unsupported operand type for *")
  | a, b =>
    if isFloatV a || isFloatV b then
      match toRatNum a, toRatNum b with
      | some x, some y => .ok (.float (x * y))
      | _, _ => .error (.typeError "unsupported operand type for *")
    else
      match toIntNum a, toIntNum b with
      | some x, some y => .ok (.int (x * y))
      | _, _ => .error (.typeError "unsupported operand type for *")

/-- Python `/` (true division: always float, `ZeroDivisionError` on 0). -/
def divVal (a b : Value) : Except Err Value :=
  match toRatNum a, toRatNum b with
  | some x, some y => if y = 0 then .error .zeroDiv else .ok (.float (x / y))
  | _, _ => .error (.typeError "unsupported operand type for /")

/-- Python `%` on numbers (floor modulus, sign of the divisor).  `%` on
strings is host format-string machinery, outside the model. -/
def modVal (a b : Value) : Except Err Value :=
  match a with
  | .str _ => .error (.unmodelled "string formatting with %")
  | _ =>
    match toIntNum a, toIntNum b with
    | some x, some y => if y = 0 then .error .zeroDiv else .ok (.int (Int.fmod x y))
    | _, _ =>
      match toRatNum a, toRatNum b with
      | some x, some y =>
        if y = 0 then .error .zeroDiv
        else .ok (.float (x - y * (⌊x / y⌋ : Int)))
      | _, _ => .error (.typeError "unsupported operand type for %")

/-- Python `**` restricted to integer exponents; a fractional exponent
needs real-valued powers, outside the rational model. -/
def powVal (a b : Value) : Except Err Value :=
  match toIntNum a, toIntNum b with
  | some x, some e =>
    if 0 ≤ e then .ok (.int (x ^ e.toNat))
    else if x = 0 then .error .zeroDiv
    else .ok (.float ((x : Rat) ^ (e : Int)))
  | _, _ =>
    match toRatNum a, toRatNum b with
    | some x, some e =>
      if e.den = 1 then
        if x = 0 ∧ e.num < 0 then .error .zeroDiv
        else .ok (.float (x ^ e.num))
      else .error (.unmodelled "real-valued power")
    | _, _ => .error (.typeError "unsupported operand type for **")

/-- Code-point lexicographic order on strings (Python `str < str`). -/
def charListLt : List Char → List Char → Bool
  | [], [] => false
  | [], _ :: _ => true
  | _ :: _, [] => false
  | a :: as', b :: bs => a < b || (a == b && charListLt as' bs)

/-- Python `<` / `<=` / `>` / `>=`: numbers across numeric kinds,
strings lexicographically; other orderings (e.g. list/list) are left to
the host and unmodelled. -/
def cmpVal (op : String) (a b : Value) : Except Err Value :=
  match toRatNum a, toRatNum b with
  | some x, some y =>
    if op = "<" then .ok (.bool (decide (x < y)))
    else if op = "<=" then .ok (.bool (decide (x ≤ y)))
    else if op = ">" then .ok (.bool (decide (y < x)))
    else .ok (.bool (decide (y ≤ x)))
  | _, _ =>
    match a, b with
    | .str s, .str t =>
      if op = "<" then .ok (.bool (charListLt s.data t.data))
      else if op = "<=" then .ok (.bool (charListLt s.data t.data || s == t))
      else if op = ">" then .ok (.bool (charListLt t.data s.data))
      else .ok (.bool (charListLt t.data s.data || s == t))
    | _, _ => .error (.unmodelled "host ordering of non-numeric values")

/-- The operator dispatch of the `BinaryOp` arm of `Interpreter.execute`.
Both operands are already evaluated when this runs.  `and` yields the
conjunction of truthiness; `or` yields the first operand itself when
truthy, else the second.  An operator matching no branch falls off the
end of `execute`, which returns `None`. -/
def applyBinOp (op : String) (l r : Value) : Except Err Value :=
  if op = "+" then addVal l r
  else if op = "-" then subVal l r
  else if op = "*" then mulVal l r
  else if op = "/" then divVal l r
  else if op = "%" then modVal l r
  else if op = "**" then powVal l r
  else if op = "==" then .ok (.bool (pyEq l r))
  else if op = "!=" then .ok (.bool (!pyEq l r))
  else if op = "<" ∨ op = "<=" ∨ op = ">" ∨ op = ">=" then cmpVal op l r
  else if op = "and" then .ok (.bool (is_truthy l && is_truthy r))
  else if op = "or" then .ok (if is_truthy l then l else r)
  else .ok .nil

/-- The `UnaryOp` arm's dispatch; an unknown operator falls off the end
of `execute` and returns `None`. -/
def applyUnary (op : String) (v : Value) : Except Err Value :=
  if op = "-" then
    match v with
    | .int n => .ok (.int (-n))
    | .float q => .ok (.float (-q))
    | .bool b => .ok (.int (-(if b then 1 else 0)))
    | _ => .error (.typeError "bad operand type for unary -")
  else if op = "not" then .ok (.bool (!is_truthy v))
  else .ok .nil

/-- The `CompoundAssign` arm's operator table (`+=`, `-=`, `*=`, `/=`);
any other operator leaves the host variable `result` unbound, a host
crash outside the model (the parser only produces these four). -/
def applyCompound (op : String) (cur v : Value) : Except Err Value :=
  if op = "+=" then addVal cur v
  else if op = "-=" then subVal cur v
  else if op = "*=" then mulVal cur v
  else if op = "/=" then divVal cur v
  else .error (.unmodelled "unknown compound operator")

/-- `IncrementDecrement`'s step: `current + 1` for `++`, otherwise
`current - 1`. -/
def applyIncOp (op : String) (cur : Value) : Except Err Value :=
  if op = "++" then addVal cur (.int 1) else subVal cur (.int 1)

/-- `obj[index]` (the `Index` arm): list/string indexing with Python's
negative-index convention, map lookup by string key. -/
def indexVal (obj idx : Value) : Except Err Value :=
  match obj with
  | .list xs =>
    match toIntNum idx with
    | some i =>
      let j := if i < 0 then i + xs.length else i
      if h : 0 ≤ j ∧ j.toNat < xs.length then .ok (xs.get ⟨j.toNat, h.2⟩)
      else .error .indexError
    | none => .error (.typeError "list indices must be integers")
  | .str t =>
    match toIntNum idx with
    | some i =>
      let j := if i < 0 then i + t.length else i
      if h : 0 ≤ j ∧ j.toNat < t.data.length then
        .ok (.str ⟨[t.data.get ⟨j.toNat, h.2⟩]⟩)
      else .error .indexError
    | none => .error (.typeError "string indices must be integers")
  | .map m =>
    match idx with
    | .str k =>
      match alistLookup m k with
      | some v => .ok v
      | none => .error (.keyError k)
    | _ => .error (.keyError "non-string key")
  | _ => .error (.typeError "object is not subscriptable")

/-! ### Name resolution, closures, methods -/

/-- The scan `for scope in reversed(self.locals_stack): if name in scope`,
given the already-reversed list of scope references. -/
def lookupRefs (s : State) : List Nat → String → Option Value
  | [], _ => none
  | r :: rs, n =>
    match scopeLookup (envGet s r) n with
    | some v => some v
    | none => lookupRefs s rs n

/-- The `Var` rule: stack innermost-first, then globals, else `NameError`. -/
def varLookup (s : State) (n : String) : Except Err Value :=
  match lookupRefs s s.stack.reverse n with
  | some v => .ok v
  | none =>
    match scopeLookup s.globals n with
    | some v => .ok v
    | none => .error (.nameError n)

/-- The write scan shared by `LetStmt`, `CompoundAssign` and
`IncrementDecrement`: mutate the innermost scope already binding the
name, if any. -/
def assignExisting (s : State) : List Nat → String → Value → Option State
  | [], _, _ => none
  | r :: rs, n, v =>
    if scopeContains (envGet s r) n then some (envSet s r (scopeSet (envGet s r) n v))
    else assignExisting s rs n v

/-- The `Let` rule: update the innermost scope binding the name, else
create the binding in the current innermost scope; the assigned value is
returned.  An empty scope stack would be a host `IndexError`
(`locals_stack[-1]`), never reached by the interpreter. -/
def letAssign (s : State) (n : String) (v : Value) : Outcome × State :=
  match assignExisting s s.stack.reverse n v with
  | some s' => (.norm v, s')
  | none =>
    match s.stack.getLast? with
    | some r => (.norm v, envSet s r (scopeSet (envGet s r) n v))
    | none => (.err (.unmodelled "empty scope stack"), s)

/-- The `None`-sentinel read shared by the `CompoundAssign` and
`IncrementDecrement` arms: `current_value = None`, the innermost-first
scan, then `if current_value is None and name in globals`.  Because the
host cannot distinguish "unbound" from "bound to `None`", a binding
whose value is `nil` falls through to globals exactly like a missing
one. -/
def compoundCur (s : State) (n : String) : Value :=
  match (lookupRefs s s.stack.reverse n).getD .nil with
  | .nil =>
    if scopeContains s.globals n then (scopeLookup s.globals n).getD .nil
    else .nil
  | v => v

/-- `VerClass.bind_method`: a *copy* of the method's closure scope is
allocated (`method.closure.copy()`), extended with `self`, and a new
`VerFunction` closing over the copy is returned. -/
def bindMethod (s : State) (m : VerFunction) (r : Nat) : VerFunction × State :=
  let newScope := scopeSet (envGet s m.closure) "self" (.inst r)
  let (nr, s₁) := allocEnv s newScope
  (⟨m.params, m.body, nr⟩, s₁)

/-- `VerInstance.get`: fields first, then class methods (bound via
`bind_method`), else `AttributeError`. -/
def getAttrValue (s : State) (r : Nat) (name : String) :
    Except Err (Value × State) :=
  let d := instGetD s r
  match scopeLookup d.fields name with
  | some v => .ok (v, s)
  | none =>
    match alistLookup d.methods name with
    | some m =>
      let (f, s₁) := bindMethod s m r
      .ok (.func f, s₁)
    | none => .error (.attrError d.clsName name)

/-- Parameter binding of `call_function`: `new_scope[param] = args[i]`
for each `i < len(args)`; extra arguments are dropped by `zip`, missing
ones leave the parameter unbound. -/
def bindParams (params : List String) (args : List Value) : Scope :=
  (params.zip args).foldl (fun sc pa => scopeSet sc pa.1 pa.2) []

/-- How `call_function` maps the body's outcome to the call's result:
falling off the end returns `None`, `ReturnException` carries the value,
and every other signal propagates (the `finally` restores the stack in
all cases). -/
def wrapCall : Outcome → Outcome
  | .norm _ => .norm .nil
  | .ret v => .norm v
  | o => o

/-- Elements iterated by `for item in iterable`: lists yield elements,
strings characters, maps their keys; anything else is a host
`TypeError`. -/
def iterItems : Value → Option (List Value)
  | .list xs => some xs
  | .str t => some (t.data.map fun c => .str ⟨[c]⟩)
  | .map m => some (m.map fun p => .str p.1)
  | _ => none

def constToValue : Const → Value
  | .nil => .nil
  | .bool b => .bool b
  | .int n => .int n
  | .float q => .float q
  | .str s => .str s

/-- `ClassDef`'s method table construction
(`methods[method_name] = VerFunction(...)`, in iteration order): each
entry must be a `FnDef` node (the parser guarantees it); its closure is
the current innermost scope reference `r`. -/
def buildMethodsFns (r : Nat) :
    List (String × Node) → List (String × VerFunction) →
    Except Err (List (String × VerFunction))
  | [], acc => .ok acc
  | (mn, mnode) :: rest, acc =>
    match mnode with
    | .fnDef _ ps bd => buildMethodsFns r rest (alistSet acc mn ⟨ps, bd, r⟩)
    | _ => .error (.unmodelled "non-function method")

/-- Intermediate result of evaluating a list of expressions:
all values, or the aborting outcome of the first failing one. -/
inductive ArgsRes where
  | vals (vs : List Value)
  | abort (o : Outcome)

/-- Like `ArgsRes` for map-literal evaluation, accumulating a dict. -/
inductive PairsRes where
  | entries (sc : Scope)
  | abort (o : Outcome)

/-! ### The evaluator (`Interpreter.execute` and `call_function`)

Every function consumes one unit of fuel per call; `fuelOut` is the
embedding's stand-in for host stack exhaustion and arises in no claim's
scenario. -/

mutual

/-- `Interpreter.execute`. -/
def execute : Nat → Node → State → Outcome × State
  | 0, _, s => (.fuelOut, s)
  | n + 1, nd, s =>
    match nd with
    | .program stmts => execList n stmts s
    | .letStmt name v =>
      let (ov, s₁) := execute n v s
      match ov with
      | .norm val => letAssign s₁ name val
      | o => (o, s₁)
    | .fnDef nameOpt params body =>
      -- the closure is the *reference* to the current innermost scope
      match s.stack.getLast? with
      | some r =>
        let f : VerFunction := ⟨params, body, r⟩
        match nameOpt with
        | some nm => (.norm (.func f), envSet s r (scopeSet (envGet s r) nm (.func f)))
        | none => (.norm (.func f), s)
      | none => (.err (.unmodelled "empty scope stack"), s)
    | .classDef name methods =>
      match s.stack.getLast? with
      | some r =>
        match buildMethodsFns r methods [] with
        | .ok ms =>
          (.norm .nil, envSet s r (scopeSet (envGet s r) name (.cls name ms)))
        | .error e => (.err e, s)
      | none => (.err (.unmodelled "empty scope stack"), s)
    | .ifStmt c tb elifs eb =>
      let (oc, s₁) := execute n c s
      match oc with
      | .norm cv =>
        if is_truthy cv then execList n tb s₁
        else execElifs n elifs eb s₁
      | o => (o, s₁)
    | .forStmt v iter body =>
      let (oi, s₁) := execute n iter s
      match oi with
      | .norm itv =>
        match iterItems itv with
        | some items => execFor n v items body s₁
        | none => (.err (.typeError "object is not iterable"), s₁)
      | o => (o, s₁)
    | .whileStmt c body => execWhile n c body s
    | .returnStmt vopt =>
      match vopt with
      | some v =>
        let (ov, s₁) := execute n v s
        match ov with
        | .norm val => (.ret val, s₁)
        | o => (o, s₁)
      | none => (.ret .nil, s)
    | .breakStmt => (.brk, s)
    | .continueStmt => (.cont, s)
    | .binaryOp l op r =>
      -- both operands are evaluated before the operator dispatch
      let (ol, s₁) := execute n l s
      match ol with
      | .norm lv =>
        let (orr, s₂) := execute n r s₁
        match orr with
        | .norm rv =>
          match applyBinOp op lv rv with
          | .ok v => (.norm v, s₂)
          | .error e => (.err e, s₂)
        | o => (o, s₂)
      | o => (o, s₁)
    | .unaryOp op v =>
      let (ov, s₁) := execute n v s
      match ov with
      | .norm val =>
        match applyUnary op val with
        | .ok r => (.norm r, s₁)
        | .error e => (.err e, s₁)
      | o => (o, s₁)
    | .call f args =>
      let (of', s₁) := execute n f s
      match of' with
      | .norm fv =>
        match execArgs n args s₁ with
        | (.vals vs, s₂) => callFunction n fv vs s₂
        | (.abort o, s₂) => (o, s₂)
      | o => (o, s₁)
    | .index o i =>
      let (oo, s₁) := execute n o s
      match oo with
      | .norm ov =>
        let (oi, s₂) := execute n i s₁
        match oi with
        | .norm iv =>
          match indexVal ov iv with
          | .ok v => (.norm v, s₂)
          | .error e => (.err e, s₂)
        | o' => (o', s₂)
      | o' => (o', s₁)
    | .attr o a =>
      let (oo, s₁) := execute n o s
      match oo with
      | .norm (.inst r) =>
        match getAttrValue s₁ r a with
        | .ok (v, s₂) => (.norm v, s₂)
        | .error e => (.err e, s₁)
      | .norm _ => (.err (.unmodelled "host getattr"), s₁)
      | o' => (o', s₁)
    | .literal c => (.norm (constToValue c), s)
    | .var nm =>
      match varLookup s nm with
      | .ok v => (.norm v, s)
      | .error e => (.err e, s)
    | .listLit elems =>
      match execArgs n elems s with
      | (.vals vs, s₁) => (.norm (.list vs), s₁)
      | (.abort o, s₁) => (o, s₁)
    | .mapLit pairs =>
      match execPairs n pairs [] s with
      | (.entries sc, s₁) => (.norm (.map sc), s₁)
      | (.abort o, s₁) => (o, s₁)
    | .newInstance cn args =>
      match s.stack.getLast? with
      | some last =>
        -- the guard checks only the innermost scope and globals
        if ¬ scopeContains (envGet s last) cn ∧ ¬ scopeContains s.globals cn then
          (.err (.nameError cn), s)
        else
          -- the resolution loop then scans the whole stack; a falsy hit
          -- (`if not ver_class:`, host truthiness) falls back to globals
          let found : Option Value :=
            match lookupRefs s s.stack.reverse cn with
            | some v => if pyTruthy v then some v else scopeLookup s.globals cn
            | none => scopeLookup s.globals cn
          match found with
          | some (.cls cname ms) =>
            match execArgs n args s with
            | (.vals vs, s₁) => instantiate n cname ms vs s₁
            | (.abort o, s₁) => (o, s₁)
          | _ => (.err (.typeError "not a class"), s)
      | none => (.err (.unmodelled "empty scope stack"), s)
    | .attrAssign objN a vN =>
      let (oo, s₁) := execute n objN s
      match oo with
      | .norm ov =>
        let (ovv, s₂) := execute n vN s₁
        match ovv with
        | .norm val =>
          match ov with
          | .inst r => (.norm val, instSetField s₂ r a val)
          | _ => (.err (.unmodelled "host setattr"), s₂)
        | o => (o, s₂)
      | o => (o, s₁)
    | .compoundAssign nm op vN =>
      match compoundCur s nm with
      | .nil => (.err (.nameError nm), s)
      | cur =>
        let (ov, s₁) := execute n vN s
        match ov with
        | .norm nv =>
          match applyCompound op cur nv with
          | .ok r => letAssign s₁ nm r
          | .error e => (.err e, s₁)
        | o => (o, s₁)
    | .incDec tgt op isPre =>
      match tgt with
      | .var nm =>
        match compoundCur s nm with
        | .nil => (.err (.nameError nm), s)
        | cur =>
          match applyIncOp op cur with
          | .ok nv =>
            match assignExisting s s.stack.reverse nm nv with
            | some s' => (.norm (if isPre then nv else cur), s')
            | none =>
              match s.stack.getLast? with
              | some r =>
                (.norm (if isPre then nv else cur),
                 envSet s r (scopeSet (envGet s r) nm nv))
              | none => (.err (.unmodelled "empty scope stack"), s)
          | .error e => (.err e, s)
      | .attr objN a =>
        let (oo, s₁) := execute n objN s
        match oo with
        | .norm (.inst r) =>
          match getAttrValue s₁ r a with
          | .ok (cur, s₂) =>
            match applyIncOp op cur with
            | .ok nv => (.norm (if isPre then nv else cur), instSetField s₂ r a nv)
            | .error e => (.err e, s₂)
          | .error e => (.err e, s₁)
        | .norm _ => (.err (.unmodelled "host getattr"), s₁)
        | o => (o, s₁)
      | _ => (.err (.unmodelled "increment of a non-lvalue"), s)

/-- Sequential execution of a statement list; the first non-normal
outcome propagates (exception semantics). -/
def execList : Nat → List Node → State → Outcome × State
  | 0, _, s => (.fuelOut, s)
  | _ + 1, [], s => (.norm .nil, s)
  | n + 1, stmt :: rest, s =>
    let (o, s₁) := execute n stmt s
    match o with
    | .norm _ => execList n rest s₁
    | o => (o, s₁)

/-- Left-to-right evaluation of argument/element lists. -/
def execArgs : Nat → List Node → State → ArgsRes × State
  | 0, _, s => (.abort .fuelOut, s)
  | _ + 1, [], s => (.vals [], s)
  | n + 1, a :: rest, s =>
    let (o, s₁) := execute n a s
    match o with
    | .norm v =>
      match execArgs n rest s₁ with
      | (.vals vs, s₂) => (.vals (v :: vs), s₂)
      | r => r
    | o => (.abort o, s₁)

/-- Map-literal evaluation (`result[key] = self.execute(value)`). -/
def execPairs : Nat → List (String × Node) → Scope → State → PairsRes × State
  | 0, _, _, s => (.abort .fuelOut, s)
  | _ + 1, [], acc, s => (.entries acc, s)
  | n + 1, (k, vN) :: rest, acc, s =>
    let (o, s₁) := execute n vN s
    match o with
    | .norm v => execPairs n rest (alistSet acc k v) s₁
    | o => (.abort o, s₁)

/-- The `elif`/`else` cascade of the `IfStmt` arm. -/
def execElifs : Nat → List (Node × List Node) → Option (List Node) → State →
    Outcome × State
  | 0, _, _, s => (.fuelOut, s)
  | n + 1, [], eb, s =>
    match eb with
    | some b => execList n b s
    | none => (.norm .nil, s)
  | n + 1, (c, b) :: rest, eb, s =>
    let (oc, s₁) := execute n c s
    match oc with
    | .norm cv =>
      if is_truthy cv then execList n b s₁
      else execElifs n rest eb s₁
    | o => (o, s₁)

/-- The iteration of the `ForStmt` arm: assign the loop variable in the
innermost scope, run the body, catch `Break`/`Continue`. -/
def execFor : Nat → String → List Value → List Node → State → Outcome × State
  | 0, _, _, _, s => (.fuelOut, s)
  | _ + 1, _, [], _, s => (.norm .nil, s)
  | n + 1, v, item :: rest, body, s =>
    match s.stack.getLast? with
    | some r =>
      let s₁ := envSet s r (scopeSet (envGet s r) v item)
      let (o, s₂) := execList n body s₁
      match o with
      | .brk => (.norm .nil, s₂)
      | .cont => execFor n v rest body s₂
      | .norm _ => execFor n v rest body s₂
      | o => (o, s₂)
    | none => (.err (.unmodelled "empty scope stack"), s)

/-- The `WhileStmt` arm. -/
def execWhile : Nat → Node → List Node → State → Outcome × State
  | 0, _, _, s => (.fuelOut, s)
  | n + 1, c, body, s =>
    let (oc, s₁) := execute n c s
    match oc with
    | .norm cv =>
      if is_truthy cv then
        let (o, s₂) := execList n body s₁
        match o with
        | .brk => (.norm .nil, s₂)
        | .cont => execWhile n c body s₂
        | .norm _ => execWhile n c body s₂
        | o => (o, s₂)
      else (.norm .nil, s₁)
    | o => (o, s₁)

/-- `Interpreter.call_function`.  For a user function: save the stack
(list copy), allocate the parameter frame, set the stack to
`[closure, frame]`, run the body, and restore the saved stack in *all*
cases (the `finally`).  Values that are neither host callables nor
`VerFunction`s raise `TypeError`. -/
def callFunction : Nat → Value → List Value → State → Outcome × State
  | 0, _, _, s => (.fuelOut, s)
  | n + 1, f, args, s =>
    match f with
    | .func fn =>
      let prevStack := s.stack
      let frame := bindParams fn.params args
      let (r, s₁) := allocEnv s frame
      let s₂ := { s₁ with stack := [fn.closure, r] }
      let (o, s₃) := execList n fn.body s₂
      (wrapCall o, { s₃ with stack := prevStack })
    | _ => (.err (.typeError "object is not callable"), s)

/-- `VerClass.instantiate`: fresh instance with empty fields; when the
class has an `__init__`, bind it to the instance and call it (its return
value is discarded, its exceptions propagate); return the instance. -/
def instantiate : Nat → String → List (String × VerFunction) → List Value →
    State → Outcome × State
  | 0, _, _, _, s => (.fuelOut, s)
  | n + 1, cname, ms, args, s =>
    let (r, s₁) := allocInst s ⟨cname, ms, []⟩
    match alistLookup ms "__init__" with
    | some im =>
      let (bound, s₂) := bindMethod s₁ im r
      let (o, s₃) := callFunction n (.func bound) args s₂
      match o with
      | .norm _ => (.norm (.inst r), s₃)
      | o => (o, s₃)
    | none => (.norm (.inst r), s₁)

end

/-! ## Helper lemmas about the dict and heap primitives -/

theorem alistLookup_set_self {α : Type} (l : List (String × α)) (k : String)
    (v : α) : alistLookup (alistSet l k v) k = some v := by
  induction l with
  | nil => simp [alistSet, alistLookup]
  | cons p rest ih =>
    by_cases h : k = p.1
    · simp [alistSet, alistLookup, h]
    · simp [alistSet, alistLookup, h, ih]

theorem alistLookup_set_ne {α : Type} (l : List (String × α)) (k k' : String)
    (v : α) (h : k' ≠ k) :
    alistLookup (alistSet l k v) k' = alistLookup l k' := by
  induction l with
  | nil => simp [alistSet, alistLookup, h]
  | cons p rest ih =>
    by_cases hk : k = p.1
    · subst hk
      simp [alistSet, alistLookup, h]
    · by_cases hk' : k' = p.1
      · simp [alistSet, alistLookup, hk, hk']
      · simp [alistSet, alistLookup, hk, hk', ih]

theorem alistContains_set_self {α : Type} (l : List (String × α)) (k : String)
    (v : α) : alistContains (alistSet l k v) k = true := by
  simp [alistContains, alistLookup_set_self]

theorem alistContains_set_of {α : Type} (l : List (String × α)) (k k' : String)
    (v : α) (h : alistContains l k' = true) :
    alistContains (alistSet l k v) k' = true := by
  by_cases hk : k' = k
  · subst hk; exact alistContains_set_self l k' v
  · simpa [alistContains, alistLookup_set_ne l k k' v hk] using h

theorem getD_set_self {α : Type} (l : List α) (i : Nat) (x d : α)
    (h : i < l.length) : (l.set i x).getD i d = x := by
  induction l generalizing i with
  | nil => simp at h
  | cons a rest ih =>
    cases i with
    | zero => rfl
    | succ j => exact ih j (Nat.lt_of_succ_lt_succ h)

theorem getD_set_ne {α : Type} (l : List α) (i j : Nat) (x d : α)
    (h : j ≠ i) : (l.set i x).getD j d = l.getD j d := by
  induction l generalizing i j with
  | nil => simp [List.set]
  | cons a rest ih =>
    cases i with
    | zero =>
      cases j with
      | zero => exact absurd rfl h
      | succ j' => rfl
    | succ i' =>
      cases j with
      | zero => rfl
      | succ j' => exact ih i' j' (fun he => h (congrArg Nat.succ he))

theorem getD_append_self {α : Type} (l : List α) (x d : α) :
    (l ++ [x]).getD l.length d = x := by
  induction l with
  | nil => rfl
  | cons a rest ih => exact ih

theorem getD_append_lt {α : Type} (l : List α) (x d : α) (i : Nat)
    (h : i < l.length) : (l ++ [x]).getD i d = l.getD i d := by
  induction l generalizing i with
  | nil => simp at h
  | cons a rest ih =>
    cases i with
    | zero => rfl
    | succ j => exact ih j (Nat.lt_of_succ_lt_succ h)

/-! ### `bindParams` lemmas -/

theorem lookup_foldl_set_of_not_mem (l : List (String × Value)) (init : Scope)
    (k : String) (h : ∀ pa ∈ l, pa.1 ≠ k) :
    scopeLookup (l.foldl (fun sc pa => scopeSet sc pa.1 pa.2) init) k =
      scopeLookup init k := by
  induction l generalizing init with
  | nil => rfl
  | cons p rest ih =>
    have hp : p.1 ≠ k := h p (by simp)
    have hr : ∀ pa ∈ rest, pa.1 ≠ k := fun pa hpa => h pa (by simp [hpa])
    simp only [List.foldl_cons]
    rw [ih _ hr]
    exact alistLookup_set_ne init p.1 k p.2 (fun he => hp he.symm)

theorem bindParams_lookup_aux (params : List String) (args : List Value)
    (init : Scope) (i : Nat) (hp : i < params.length) (ha : i < args.length)
    (hnd : params.Nodup) :
    scopeLookup ((params.zip args).foldl (fun sc pa => scopeSet sc pa.1 pa.2) init)
      (params.get ⟨i, hp⟩) = some (args.get ⟨i, ha⟩) := by
  induction params generalizing args init i with
  | nil => simp at hp
  | cons p ps ih =>
    cases args with
    | nil => simp at ha
    | cons a as' =>
      cases i with
      | zero =>
        simp only [List.zip_cons_cons, List.foldl_cons, List.get]
        have hkeys : ∀ pa ∈ ps.zip as', pa.1 ≠ p := by
          intro pa hpa
          have h1 : pa.1 ∈ ps := (List.of_mem_zip hpa).1
          have hnotin : p ∉ ps := (List.nodup_cons.mp hnd).1
          intro he
          exact hnotin (he ▸ h1)
        rw [lookup_foldl_set_of_not_mem _ _ _ hkeys]
        exact alistLookup_set_self init p a
      | succ j =>
        simp only [List.zip_cons_cons, List.foldl_cons, List.get]
        exact ih as' _ j (by simp at hp; omega) (by simp at ha; omega)
          (List.nodup_cons.mp hnd).2

theorem bindParams_lookup (params : List String) (args : List Value)
    (i : Nat) (hp : i < params.length) (ha : i < args.length)
    (hnd : params.Nodup) :
    scopeLookup (bindParams params args) (params.get ⟨i, hp⟩) =
      some (args.get ⟨i, ha⟩) :=
  bindParams_lookup_aux params args [] i hp ha hnd

theorem bindParams_unbound_aux (params : List String) (args : List Value)
    (init : Scope) (p : String) (hnd : params.Nodup)
    (hp : p ∈ params.drop args.length) :
    scopeLookup ((params.zip args).foldl (fun sc pa => scopeSet sc pa.1 pa.2) init)
      p = scopeLookup init p := by
  induction params generalizing args init with
  | nil => simp at hp
  | cons q qs ih =>
    cases args with
    | nil => rfl
    | cons a as' =>
      simp only [List.zip_cons_cons, List.foldl_cons]
      have hp' : p ∈ qs.drop as'.length := by simpa using hp
      have hmem : p ∈ qs := List.mem_of_mem_drop hp'
      have hq : p ≠ q := by
        intro he
        exact (List.nodup_cons.mp hnd).1 (he ▸ hmem)
      rw [ih as' _ (List.nodup_cons.mp hnd).2 hp']
      exact alistLookup_set_ne init q p a hq

theorem bindParams_unbound (params : List String) (args : List Value)
    (p : String) (hnd : params.Nodup) (hp : p ∈ params.drop args.length) :
    scopeLookup (bindParams params args) p = none :=
  bindParams_unbound_aux params args [] p hnd hp

theorem bindParams_extra (params : List String) (args : List Value)
    (k : String) (hk : k ∉ params) :
    scopeLookup (bindParams params args) k = none := by
  unfold bindParams
  rw [lookup_foldl_set_of_not_mem]
  · rfl
  · intro pa hpa he
    exact hk (he ▸ (List.of_mem_zip hpa).1)

theorem contains_false_lookup_none {α : Type} (l : List (String × α))
    (k : String) (h : alistContains l k = false) : alistLookup l k = none := by
  cases hl : alistLookup l k with
  | none => rfl
  | some v => rw [alistContains, hl] at h; cases h

set_option maxRecDepth 100000

/-! ## The claims -/

/-- Claim C4 (confirmed): a value is falsy exactly when it is `nil`,
boolean `false`, integer or float zero, the empty string, or the empty
list; every other value — in particular the empty map and every class
instance — is truthy. -/
theorem C4_truthiness :
    ∀ v : Value,
      (is_truthy v = false ↔
        (v = .nil ∨ v = .bool false ∨ v = .int 0 ∨ v = .float 0 ∨
         v = .str "" ∨ v = .list [])) ∧
      is_truthy (.map []) = true ∧ (∀ r : Nat, is_truthy (.inst r) = true) := by
  intro v
  refine ⟨?_, rfl, fun r => rfl⟩
  cases v with
  | nil => simp [is_truthy]
  | bool b => cases b <;> simp [is_truthy]
  | int n => simp [is_truthy]
  | float q => simp [is_truthy]
  | str s => simp [is_truthy, String.isEmpty_iff]
  | list xs => cases xs <;> simp [is_truthy, List.isEmpty]
  | map m => simp [is_truthy]
  | func f => simp [is_truthy]
  | cls nm ms => simp [is_truthy]
  | inst r => simp [is_truthy]

/-- Claim C6 counterexample: tokenizing the source `"abc` — a string
literal whose closing quote is absent — does *not* raise a lexical
error; `read_string`'s loop stops at end of input, the trailing
`advance` is a no-op, and a `STRING` token holding the unterminated text
is returned, followed by `EOF`. -/
theorem C6_counterexample :
    tokenize "\"abc" 3 =
      .ok [⟨.STRING, .str "abc", 1, 1⟩, ⟨.EOF, .none, 1, 5⟩] := by decide

/-- Claim C6 (corrected): `read_string` never raises — for every source
and cursor position it produces a `STRING` token (on a missing closing
quote, the token simply holds everything up to the end of the input). -/
theorem C6_amended (src : List Char) (st : LexSt) :
    (readString src st).1.type = TT.STRING := rfl

/-- One iteration of the tokenizer's main loop on the source `"!"`: the
`'!'` branch finds no `'='` ahead and has no else-branch, so the loop
re-enters with the cursor unmoved. -/
theorem tokLoop_bang_step (n : Nat) (acc : List Token) :
    tokLoop "!".data (n + 1) ⟨0, 1, 1⟩ acc = tokLoop "!".data n ⟨0, 1, 1⟩ acc := rfl

/-- Claim C7 (code bug): on the source `"!"` — a `!` not followed by
`=` — `Lexer.tokenize` does not terminate (and a fortiori raises no
lexical error): every iteration of its loop leaves the state unchanged,
so the embedding exhausts any amount of fuel. -/
theorem C7_bang_diverges : ∀ fuel : Nat, tokenize "!" fuel = .noFuel := by
  intro fuel
  induction fuel with
  | zero => rfl
  | succ n ih =>
    show tokLoop "!".data (n + 1) ⟨0, 1, 1⟩ [] = .noFuel
    rw [tokLoop_bang_step]
    exact ih

/-- Claim C2 (code bug): with the class `C` bound in the *outer* scope
of a two-scope stack (exactly the shape produced by calling a function
while `C` is defined at top level) and absent from globals, `new C()`
raises `NameError` — the guard of the `NewInstance` arm consults only
`locals_stack[-1]` and `globals`, never the rest of the stack that the
resolution loop below it would search. -/
theorem C2_outer_scope_class :
    execute 5 (.newInstance "C" [])
      ⟨[[("C", .cls "C" [])], []], [], [0, 1], []⟩ =
    (.err (.nameError "C"), ⟨[[("C", .cls "C" [])], []], [], [0, 1], []⟩) := rfl

/-- Claim C1 counterexample: evaluating `false and (x = 1)` both
returns `false` *and* performs the right operand's side effect — `x`
is bound to `1` afterwards — so evaluation of `and` does not
short-circuit. -/
theorem C1_counterexample :
    execute 5 (.binaryOp (.literal (.bool false)) "and"
        (.letStmt "x" (.literal (.int 1))))
      ⟨[[]], [], [0], []⟩ =
    (.norm (.bool false), ⟨[[("x", .int 1)]], [], [0], []⟩) := rfl

/-- Claim C1 (corrected): the `BinaryOp` arm evaluates *both* operands
before dispatching on the operator, so the right operand's effects
always occur; `a or b` then returns the left value itself, unchanged,
when it is truthy and the right value otherwise, while `a and b`
returns the boolean conjunction of the two truthiness tests. -/
theorem C1_amended (a b : Node) (s s₁ s₂ : State) (la lb : Value) (n : Nat)
    (ha : execute n a s = (.norm la, s₁))
    (hb : execute n b s₁ = (.norm lb, s₂)) :
    execute (n + 1) (.binaryOp a "or" b) s =
      (.norm (if is_truthy la then la else lb), s₂)
    ∧ execute (n + 1) (.binaryOp a "and" b) s =
      (.norm (.bool (is_truthy la && is_truthy lb)), s₂) := by
  constructor <;> simp [execute, ha, hb, applyBinOp]

/-- Witness for `C1_amended` at `7 or 9` and a state with one empty
scope: both hypotheses hold by computation and `or` returns the left
operand `7` unchanged. -/
theorem C1_amended_witness :
    execute 2 (.binaryOp (.literal (.int 7)) "or" (.literal (.int 9)))
      ⟨[[]], [], [0], []⟩ =
      (.norm (if is_truthy (.int 7) then .int 7 else .int 9), ⟨[[]], [], [0], []⟩)
    ∧ execute 2 (.binaryOp (.literal (.int 7)) "and" (.literal (.int 9)))
      ⟨[[]], [], [0], []⟩ =
      (.norm (.bool (is_truthy (.int 7) && is_truthy (.int 9))), ⟨[[]], [], [0], []⟩) :=
  C1_amended (.literal (.int 7)) (.literal (.int 9))
    ⟨[[]], [], [0], []⟩ ⟨[[]], [], [0], []⟩ ⟨[[]], [], [0], []⟩
    (.int 7) (.int 9) 1 rfl rfl

/-- `Let`-rule writes return the assigned value whenever the scope stack
is nonempty (an empty stack would be a host `IndexError`). -/
theorem letAssign_fst (s : State) (n : String) (v : Value)
    (h : s.stack ≠ []) : (letAssign s n v).1 = .norm v := by
  unfold letAssign
  cases hae : assignExisting s s.stack.reverse n v with
  | some s' => rfl
  | none =>
    cases hs : s.stack.getLast? with
    | some r => rfl
    | none => exact absurd (List.getLast?_eq_none_iff.mp hs) h

/-- Claim C10 (confirmed): assignments are expressions yielding the
stored value — when their sub-evaluations succeed, `Let(n, v)` evaluates
to the value of `v`, `CompoundAssign(n, op, v)` to `current OP v`, and
`AttrAssign(obj, a, v)` to the value of `v` (so a lambda body like
`n = n + 1` returns the incremented value). -/
theorem C10_assignment_value (fuel : Nat)
    (nm : String) (v : Node) (s t : State) (val : Value)
    (hv : execute fuel v s = (.norm val, t)) (hts : t.stack ≠ [])
    (nm₂ op : String) (v₂ : Node) (s₂ t₂ : State) (cur val₂ rr : Value)
    (hcur : compoundCur s₂ nm₂ = cur) (hcn : cur ≠ .nil)
    (hv₂ : execute fuel v₂ s₂ = (.norm val₂, t₂))
    (hop : applyCompound op cur val₂ = .ok rr) (hts₂ : t₂.stack ≠ [])
    (objN v₃ : Node) (a : String) (s₃ t₃ u₃ : State) (r : Nat) (val₃ : Value)
    (ho : execute fuel objN s₃ = (.norm (.inst r), t₃))
    (hv₃ : execute fuel v₃ t₃ = (.norm val₃, u₃)) :
    (execute (fuel + 1) (.letStmt nm v) s).1 = .norm val
    ∧ (execute (fuel + 1) (.compoundAssign nm₂ op v₂) s₂).1 = .norm rr
    ∧ (execute (fuel + 1) (.attrAssign objN a v₃) s₃).1 = .norm val₃ := by
  refine ⟨?_, ?_, ?_⟩
  · simp only [execute, hv]
    exact letAssign_fst t nm val hts
  · cases cur with
    | nil => exact absurd rfl hcn
    | bool b => simp only [execute, hcur, hv₂, hop]; exact letAssign_fst t₂ nm₂ rr hts₂
    | int n => simp only [execute, hcur, hv₂, hop]; exact letAssign_fst t₂ nm₂ rr hts₂
    | float q => simp only [execute, hcur, hv₂, hop]; exact letAssign_fst t₂ nm₂ rr hts₂
    | str s' => simp only [execute, hcur, hv₂, hop]; exact letAssign_fst t₂ nm₂ rr hts₂
    | list xs => simp only [execute, hcur, hv₂, hop]; exact letAssign_fst t₂ nm₂ rr hts₂
    | map m => simp only [execute, hcur, hv₂, hop]; exact letAssign_fst t₂ nm₂ rr hts₂
    | func f => simp only [execute, hcur, hv₂, hop]; exact letAssign_fst t₂ nm₂ rr hts₂
    | cls c ms => simp only [execute, hcur, hv₂, hop]; exact letAssign_fst t₂ nm₂ rr hts₂
    | inst ir => simp only [execute, hcur, hv₂, hop]; exact letAssign_fst t₂ nm₂ rr hts₂
  · simp [execute, ho, hv₃]

/-- Witness for `C10_assignment_value`: `x = 5`, then `y += 1` on
`y ↦ 2`, then `p.a = 7` on a fresh instance. -/
theorem C10_witness :
    (execute 2 (.letStmt "x" (.literal (.int 5)))
      ⟨[[]], [], [0], []⟩).1 = .norm (.int 5)
    ∧ (execute 2 (.compoundAssign "y" "+=" (.literal (.int 1)))
      ⟨[[("y", .int 2)]], [], [0], []⟩).1 = .norm (.int 3)
    ∧ (execute 2 (.attrAssign (.var "p") "a" (.literal (.int 7)))
      ⟨[[("p", .inst 0)]], [⟨"P", [], []⟩], [0], []⟩).1 = .norm (.int 7) :=
  C10_assignment_value 1
    "x" (.literal (.int 5)) ⟨[[]], [], [0], []⟩ ⟨[[]], [], [0], []⟩ (.int 5)
    rfl (by simp)
    "y" "+=" (.literal (.int 1)) ⟨[[("y", .int 2)]], [], [0], []⟩
    ⟨[[("y", .int 2)]], [], [0], []⟩ (.int 2) (.int 1) (.int 3)
    rfl (by simp) rfl rfl (by simp)
    (.var "p") (.literal (.int 7)) "a" ⟨[[("p", .inst 0)]], [⟨"P", [], []⟩], [0], []⟩
    ⟨[[("p", .inst 0)]], [⟨"P", [], []⟩], [0], []⟩
    ⟨[[("p", .inst 0)]], [⟨"P", [], []⟩], [0], []⟩ 0 (.int 7)
    rfl rfl

/-- Claim C8 counterexample: with `x` *bound* — to `nil` — in the only
scope and absent from globals, `x += 1` raises `NameError`, refuting
"raises `NameError` if and only if `n` is unbound": the arm's
`current_value is None` sentinel cannot distinguish a `nil` binding
from a missing one. -/
theorem C8_counterexample :
    execute 5 (.compoundAssign "x" "+=" (.literal (.int 1)))
      ⟨[[("x", .nil)]], [], [0], []⟩ =
    (.err (.nameError "x"), ⟨[[("x", .nil)]], [], [0], []⟩) := rfl

/-- Claim C8 (corrected): the `CompoundAssign` arm resolves the current
value with a `None` sentinel — the innermost stack binding unless it is
missing *or `nil`*, in which case globals are consulted; it raises
`NameError` (before evaluating `v`, leaving the state untouched) exactly
when that resolution yields `nil`, and otherwise computes
`current OP v` and writes it back by the `Let` rule, returning the
result. -/
theorem C8_sentinel_read (sA : State) (nmA opA : String) (vA : Node)
    (hnil : compoundCur sA nmA = .nil)
    (fuel : Nat) (sB tB : State) (nmB opB : String) (vB : Node)
    (curB valB rrB : Value)
    (hcur : compoundCur sB nmB = curB) (hcnil : curB ≠ .nil)
    (hvB : execute fuel vB sB = (.norm valB, tB))
    (hopB : applyCompound opB curB valB = .ok rrB) :
    (∀ m : Nat, execute (m + 1) (.compoundAssign nmA opA vA) sA =
      (.err (.nameError nmA), sA))
    ∧ execute (fuel + 1) (.compoundAssign nmB opB vB) sB = letAssign tB nmB rrB
    ∧ (compoundCur sB nmB = .nil ↔
        ((lookupRefs sB sB.stack.reverse nmB).getD .nil = .nil ∧
         (scopeLookup sB.globals nmB).getD .nil = .nil)) := by
  refine ⟨?_, ?_, ?_⟩
  · intro m
    simp only [execute, hnil]
  · cases curB with
    | nil => exact absurd rfl hcnil
    | bool b => simp only [execute, hcur, hvB, hopB]
    | int n => simp only [execute, hcur, hvB, hopB]
    | float q => simp only [execute, hcur, hvB, hopB]
    | str s' => simp only [execute, hcur, hvB, hopB]
    | list xs => simp only [execute, hcur, hvB, hopB]
    | map m => simp only [execute, hcur, hvB, hopB]
    | func f => simp only [execute, hcur, hvB, hopB]
    | cls c ms => simp only [execute, hcur, hvB, hopB]
    | inst ir => simp only [execute, hcur, hvB, hopB]
  · unfold compoundCur
    cases hx : (lookupRefs sB sB.stack.reverse nmB).getD .nil with
    | nil =>
      by_cases hg : scopeContains sB.globals nmB
      · simp [hg]
      · have hnone : scopeLookup sB.globals nmB = none :=
          contains_false_lookup_none sB.globals nmB (by simpa using hg)
        simp [hg, hnone]
    | bool b => simp
    | int n => simp
    | float q => simp
    | str s' => simp
    | list xs => simp
    | map m => simp
    | func f => simp
    | cls c ms => simp
    | inst ir => simp

/-- Witness for `C8_sentinel_read`: the `nil` side at `x ↦ nil` and the
positive side at `y ↦ 2` with `y += 1`. -/
theorem C8_witness :
    execute 3 (.compoundAssign "x" "+=" (.literal (.int 1)))
      ⟨[[("x", .nil)]], [], [0], []⟩ =
      (.err (.nameError "x"), ⟨[[("x", .nil)]], [], [0], []⟩)
    ∧ execute 2 (.compoundAssign "y" "+=" (.literal (.int 1)))
      ⟨[[("y", .int 2)]], [], [0], []⟩ =
      letAssign ⟨[[("y", .int 2)]], [], [0], []⟩ "y" (.int 3)
    ∧ (compoundCur ⟨[[("y", .int 2)]], [], [0], []⟩ "y" = .nil ↔
        ((lookupRefs ⟨[[("y", .int 2)]], [], [0], []⟩ [0] "y").getD .nil = .nil ∧
         ((scopeLookup [] "y").getD Value.nil = .nil))) :=
  have h := C8_sentinel_read ⟨[[("x", .nil)]], [], [0], []⟩ "x" "+="
    (.literal (.int 1)) rfl
    1 ⟨[[("y", .int 2)]], [], [0], []⟩ ⟨[[("y", .int 2)]], [], [0], []⟩
    "y" "+=" (.literal (.int 1)) (.int 2) (.int 1) (.int 3)
    rfl (by simp) rfl rfl
  ⟨h.1 2, h.2.1, h.2.2⟩

/-- Claim C9 (confirmed): reading a method attribute `i.m` (not
shadowed by a field) materializes a bound method whose closure is a
*fresh* scope — a shallow copy of the method's original closure contents
extended with `self ↦ i`, allocated at a reference distinct from the
original — and an assignment executed under a bound-method call's stack
`[copy, frame]` to a name bound in the copy (and not in the frame)
mutates the copy alone: every other heap scope, in particular the
method's original defining scope, is left untouched, so later
`bind_method` copies (and hence later bound-method calls) never observe
the mutation. -/
theorem C9_bound_method_copy (s : State) (r : Nat) (m : String)
    (mf : VerFunction)
    (hf : scopeLookup (instGetD s r).fields m = none)
    (hm : alistLookup (instGetD s r).methods m = some mf)
    (hcl : mf.closure < s.envs.length) :
    getAttrValue s r m =
      .ok (.func ⟨mf.params, mf.body, s.envs.length⟩,
        { s with envs := s.envs ++ [scopeSet (envGet s mf.closure) "self" (.inst r)] })
    ∧ s.envs.length ≠ mf.closure
    ∧ (∀ (s₂ : State) (c fr : Nat) (n : String) (k : Const) (fuel : Nat),
        s₂.stack = [c, fr] →
        scopeContains (envGet s₂ fr) n = false →
        scopeContains (envGet s₂ c) n = true →
        execute (fuel + 2) (.letStmt n (.literal k)) s₂ =
          (.norm (constToValue k),
           envSet s₂ c (scopeSet (envGet s₂ c) n (constToValue k)))
        ∧ ∀ e, e ≠ c →
            (envSet s₂ c (scopeSet (envGet s₂ c) n (constToValue k))).envs.getD e [] =
              s₂.envs.getD e []) := by
  refine ⟨?_, ?_, ?_⟩
  · simp only [getAttrValue, hf, hm]
    rfl
  · omega
  · intro s₂ c fr n k fuel hstk hfr hc
    constructor
    · show (letAssign s₂ n (constToValue k)) = _
      unfold letAssign assignExisting
      rw [hstk]
      show (match assignExisting s₂ [fr, c] n (constToValue k) with
            | some s' => (Outcome.norm (constToValue k), s')
            | none => _) = _
      simp [assignExisting, hfr, hc]
    · intro e he
      exact getD_set_ne s₂.envs c e _ [] he

/-- Witness for `C9_bound_method_copy`: a one-method class instance at
heap slot 0, whose method closes over scope 0 binding `n ↦ 1`; the
bound method copies that scope to slot 1, and a `n = 2` assignment under
the call stack `[1, 2]` leaves scope 0 intact. -/
theorem C9_witness :
    getAttrValue ⟨[[("n", .int 1)]], [⟨"K", [("m", ⟨[], [], 0⟩)], []⟩], [0], []⟩ 0 "m" =
      .ok (.func ⟨[], [], 1⟩,
        ⟨[[("n", .int 1)], [("n", .int 1), ("self", .inst 0)]],
         [⟨"K", [("m", ⟨[], [], 0⟩)], []⟩], [0], []⟩)
    ∧ (execute 3 (.letStmt "n" (.literal (.int 2)))
        ⟨[[("n", .int 1)], [("n", .int 1), ("self", .inst 0)], []],
         [⟨"K", [("m", ⟨[], [], 0⟩)], []⟩], [1, 2], []⟩ =
        (.norm (.int 2),
         ⟨[[("n", .int 1)], [("n", .int 2), ("self", .inst 0)], []],
          [⟨"K", [("m", ⟨[], [], 0⟩)], []⟩], [1, 2], []⟩))
    ∧ ([[("n", .int 1)], [("n", .int 2), ("self", .inst 0)], []].getD 0 ([] : Scope)
        = [("n", .int 1)]) := by
  have h := C9_bound_method_copy
    ⟨[[("n", .int 1)]], [⟨"K", [("m", ⟨[], [], 0⟩)], []⟩], [0], []⟩ 0 "m"
    ⟨[], [], 0⟩ rfl rfl (by decide)
  refine ⟨h.1, ?_, ?_⟩
  · have h2 := (h.2.2
      ⟨[[("n", .int 1)], [("n", .int 1), ("self", .inst 0)], []],
       [⟨"K", [("m", ⟨[], [], 0⟩)], []⟩], [1, 2], []⟩ 1 2 "n" (.int 2) 1
      rfl rfl rfl).1
    exact h2
  · have h3 := (h.2.2
      ⟨[[("n", .int 1)], [("n", .int 1), ("self", .inst 0)], []],
       [⟨"K", [("m", ⟨[], [], 0⟩)], []⟩], [1, 2], []⟩ 1 2 "n" (.int 2) 1
      rfl rfl rfl).2 0 (by decide)
    exact h3

/-- Claim C5 (confirmed, under the implicit assumption that the declared
parameter names are distinct): a user-function call replaces the scope
stack by exactly `[f.closure, new_frame]` for the duration of the body
and restores the caller's stack afterwards in *every* case — normal
completion, `return`, any raised error, and even exhaustion of the
recursion budget; the new frame binds the i-th declared parameter to the
i-th argument for `i < min(len(params), len(args))`, arguments beyond
the declared parameters are ignored, and a declared parameter with no
argument is left unbound, so referencing it (when neither the closure
scope nor globals bind it) raises `NameError`. -/
theorem C5_call_frame (f : VerFunction) (args : List Value) (s : State)
    (hnd : f.params.Nodup) :
    (∀ fuel, ((callFunction fuel (.func f) args s).2).stack = s.stack)
    ∧ (∀ fuel, callFunction (fuel + 1) (.func f) args s =
        (wrapCall (execList fuel f.body
            ⟨s.envs ++ [bindParams f.params args], s.insts,
             [f.closure, s.envs.length], s.globals⟩).1,
         { (execList fuel f.body
            ⟨s.envs ++ [bindParams f.params args], s.insts,
             [f.closure, s.envs.length], s.globals⟩).2 with stack := s.stack }))
    ∧ (∀ (i : Nat) (hp : i < f.params.length) (ha : i < args.length),
        scopeLookup (bindParams f.params args) (f.params.get ⟨i, hp⟩) =
          some (args.get ⟨i, ha⟩))
    ∧ (∀ p ∈ f.params.drop args.length,
        scopeLookup (bindParams f.params args) p = none)
    ∧ (∀ k, k ∉ f.params → scopeLookup (bindParams f.params args) k = none)
    ∧ (∀ p ∈ f.params.drop args.length,
        scopeLookup (envGet s f.closure) p = none →
        scopeLookup s.globals p = none →
        ∀ m : Nat,
          (execute (m + 1) (.var p)
            ⟨s.envs ++ [bindParams f.params args], s.insts,
             [f.closure, s.envs.length], s.globals⟩).1 = .err (.nameError p)) := by
  refine ⟨?_, ?_, ?_, ?_, ?_, ?_⟩
  · intro fuel
    cases fuel with
    | zero => rfl
    | succ n => rfl
  · intro fuel
    rfl
  · intro i hp ha
    exact bindParams_lookup f.params args i hp ha hnd
  · intro p hp
    exact bindParams_unbound f.params args p hnd hp
  · intro k hk
    exact bindParams_extra f.params args k hk
  · intro p hp hclo hglob m
    have hframe : scopeLookup (bindParams f.params args) p = none :=
      bindParams_unbound f.params args p hnd hp
    have hfresh :
        envGet ⟨s.envs ++ [bindParams f.params args], s.insts,
          [f.closure, s.envs.length], s.globals⟩ s.envs.length =
          bindParams f.params args :=
      getD_append_self s.envs (bindParams f.params args) []
    have hcloext :
        scopeLookup (envGet ⟨s.envs ++ [bindParams f.params args], s.insts,
          [f.closure, s.envs.length], s.globals⟩ f.closure) p = none := by
      rcases Nat.lt_trichotomy f.closure s.envs.length with h | h | h
      · rw [show envGet ⟨s.envs ++ [bindParams f.params args], s.insts,
              [f.closure, s.envs.length], s.globals⟩ f.closure =
                envGet s f.closure from getD_append_lt s.envs _ [] _ h]
        exact hclo
      · rw [show envGet ⟨s.envs ++ [bindParams f.params args], s.insts,
              [f.closure, s.envs.length], s.globals⟩ f.closure =
                bindParams f.params args from h ▸ hfresh]
        exact hframe
      · have hlen : (s.envs ++ [bindParams f.params args]).length ≤ f.closure := by
          simp; omega
        rw [show envGet ⟨s.envs ++ [bindParams f.params args], s.insts,
              [f.closure, s.envs.length], s.globals⟩ f.closure = [] from
            List.getD_eq_default _ _ hlen]
        rfl
    simp only [execute, varLookup]
    show (match
        (match lookupRefs _ [s.envs.length, f.closure] p with
         | some v => Except.ok v
         | none =>
           match scopeLookup s.globals p with
           | some v => Except.ok v
           | none => Except.error (Err.nameError p)) with
      | .ok v => (Outcome.norm v, _)
      | .error e => (Outcome.err e, _)).1 = _
    simp only [lookupRefs, hfresh, hframe, hcloext, hglob]

/-- Witness for `C5_call_frame`: params `["a","b"]` called with the
single argument `1` from a one-scope state; `a` is bound, `b` is
unbound and referencing it raises `NameError`. -/
theorem C5_witness :
    ((callFunction 9 (.func ⟨["a", "b"], [], 0⟩) [.int 1]
        ⟨[[]], [], [0], []⟩).2).stack = [0]
    ∧ scopeLookup (bindParams ["a", "b"] [.int 1]) "a" = some (.int 1)
    ∧ scopeLookup (bindParams ["a", "b"] [.int 1]) "b" = none
    ∧ scopeLookup (bindParams ["a", "b"] [.int 1]) "zz" = none
    ∧ (execute 3 (.var "b")
        ⟨[[]] ++ [bindParams ["a", "b"] [.int 1]], [], [0, 1], []⟩).1 =
      .err (.nameError "b") := by
  have h := C5_call_frame ⟨["a", "b"], [], 0⟩ [.int 1] ⟨[[]], [], [0], []⟩
    (by decide)
  exact ⟨h.1 9, h.2.2.1 0 (by decide) (by decide),
    h.2.2.2.1 "b" (by decide), h.2.2.2.2.1 "zz" (by decide),
    h.2.2.2.2.2 "b" (by decide) rfl rfl 2⟩

/-- Claim C3 (confirmed): a function's closure is the *reference* to the
scope that was innermost at definition time, not a snapshot of its
contents — defining `fn fname() return v end` over an arbitrary innermost
scope `sc0` binding `v` yields a function value closing over that
scope's heap reference; after a subsequent `v = k` mutates the scope,
calling the function through its name returns the *mutated* value `k`,
for every scope contents, every variable `v`, and every new value `k`. -/
theorem C3_closure_live (v fname : String) (sc0 : Scope) (ins : List InstData)
    (glob : Scope) (k : Const) (hvf : v ≠ fname)
    (hv : scopeContains sc0 v = true) :
    (execute 4 (.fnDef (some fname) [] [.returnStmt (some (.var v))])
        ⟨[sc0], ins, [0], glob⟩).1
      = .norm (.func ⟨[], [.returnStmt (some (.var v))], 0⟩)
    ∧ (execute 9 (.call (.var fname) [])
        (execute 4 (.letStmt v (.literal k))
          (execute 4 (.fnDef (some fname) [] [.returnStmt (some (.var v))])
            ⟨[sc0], ins, [0], glob⟩).2).2).1
      = .norm (constToValue k) := by
  refine ⟨rfl, ?_⟩
  -- state after the definition: the innermost scope now also binds fname
  have h1 : (execute 4 (.fnDef (some fname) [] [.returnStmt (some (.var v))])
      ⟨[sc0], ins, [0], glob⟩).2 =
      ⟨[scopeSet sc0 fname (.func ⟨[], [.returnStmt (some (.var v))], 0⟩)],
       ins, [0], glob⟩ := rfl
  rw [h1]
  -- the mutation `v = k` hits the same scope (v is bound there)
  have hc : scopeContains
      (scopeSet sc0 fname (.func ⟨[], [.returnStmt (some (.var v))], 0⟩)) v = true :=
    alistContains_set_of sc0 fname v _ hv
  have h2 : (execute 4 (.letStmt v (.literal k))
      ⟨[scopeSet sc0 fname (.func ⟨[], [.returnStmt (some (.var v))], 0⟩)],
       ins, [0], glob⟩).2 =
      ⟨[scopeSet (scopeSet sc0 fname (.func ⟨[], [.returnStmt (some (.var v))], 0⟩))
          v (constToValue k)], ins, [0], glob⟩ := by
    show (letAssign ⟨[scopeSet sc0 fname (.func ⟨[], [.returnStmt (some (.var v))], 0⟩)],
        ins, [0], glob⟩ v (constToValue k)).2 = _
    unfold letAssign
    show (match assignExisting _ [0] v (constToValue k) with
          | some s' => (Outcome.norm (constToValue k), s')
          | none => _).2 = _
    simp only [assignExisting, envGet, List.getD, List.get?, Option.getD, hc,
      if_true, envSet]
    rfl
  rw [h2]
  -- the call resolves fname, then the body reads v from the live scope
  have hlf : alistLookup
      (alistSet (alistSet sc0 fname (.func ⟨[], [.returnStmt (some (.var v))], 0⟩))
        v (constToValue k)) fname =
      some (.func ⟨[], [.returnStmt (some (.var v))], 0⟩) := by
    rw [alistLookup_set_ne _ v fname _ (Ne.symm hvf)]
    exact alistLookup_set_self sc0 fname _
  have hlv : alistLookup
      (alistSet (alistSet sc0 fname (.func ⟨[], [.returnStmt (some (.var v))], 0⟩))
        v (constToValue k)) v = some (constToValue k) :=
    alistLookup_set_self _ v _
  simp only [execute, varLookup, lookupRefs, execArgs, callFunction, execList,
    wrapCall, List.reverse, List.reverseAux, envGet, List.getD, List.get?,
    Option.getD, hlf, hlv, bindParams, List.zip, List.zipWith, List.foldl,
    allocEnv, scopeLookup, scopeSet, alistLookup, List.length]

/-- Witness for `C3_closure_live`: scope `n ↦ 0`, function `f` returning
`n`, mutation `n = 5`; the call yields `5`. -/
theorem C3_witness :
    (execute 4 (.fnDef (some "f") [] [.returnStmt (some (.var "n"))])
        ⟨[[("n", .int 0)]], [], [0], []⟩).1
      = .norm (.func ⟨[], [.returnStmt (some (.var "n"))], 0⟩)
    ∧ (execute 9 (.call (.var "f") [])
        (execute 4 (.letStmt "n" (.literal (.int 5)))
          (execute 4 (.fnDef (some "f") [] [.returnStmt (some (.var "n"))])
            ⟨[[("n", .int 0)]], [], [0], []⟩).2).2).1
      = .norm (constToValue (.int 5)) :=
  C3_closure_live "n" "f" [("n", .int 0)] [] [] (.int 5) (by decide) rfl

end Veureka
